import Mathlib

/-!
Shallow embedding of the core of `src/bot.py` (3xBot): a rate-limited,
TTL-cached, backoff-retrying gamerscore lookup service.

Python dicts keyed by strings become association lists with unique keys;
timestamps (`time.time()` floats) become `Int` seconds; the aiohttp
transport and the BeautifulSoup body parse are abstracted into a
`FetchOutcome` value per attempt: either a transport error, or a response
carrying its HTTP status together with the integer the out-of-lock parse
stage would extract from the body (`none` = parse failure, i.e. the
Gamerscore marker or digit run is absent).  Every `await asyncio.sleep`
and every HTTP request of a run is recorded in an event trace so that
timing/attempt-count claims can be stated.
-/

namespace GamerscoreBot

/-- `CACHE_EXPIRY_SECONDS: int = 3600` from bot.py. -/
def CACHE_EXPIRY_SECONDS : Int := 3600

/-- Python `str.strip()`: drop whitespace from both ends. -/
def pyStrip (cs : List Char) : List Char :=
  ((cs.dropWhile Char.isWhitespace).reverse.dropWhile Char.isWhitespace).reverse

/-- Python `str.lower()` (ASCII lower-casing, which covers the gamertag
character set), used bare — without `strip` — in the ignore
checks of the collectors. -/
def pyLower (s : String) : String :=
  String.mk (s.data.map Char.toLower)

/-- Key normalization used throughout bot.py: `tag.lower().strip()`
(lower-case every character, then strip surrounding whitespace; ASCII
lower-casing, which covers the gamertag character set). -/
def normalize_tag (s : String) : String :=
  String.mk (pyStrip (s.data.map Char.toLower))

/-- Python `dict.get`: first binding of the key, if any. -/
def dictGet {α : Type} (m : List (String × α)) (k : String) : Option α :=
  match m with
  | [] => none
  | (k₂, v) :: rest => if k = k₂ then some v else dictGet rest k

/-- Python `del d[k]` (also `d.pop(k, None)`): drop every binding of `k`. -/
def dictDel {α : Type} (m : List (String × α)) (k : String) : List (String × α) :=
  m.filter (fun kv => kv.1 ≠ k)

/-- Python `d[k] = v`: bind `k` to `v`, superseding any old binding. -/
def dictSet {α : Type} (m : List (String × α)) (k : String) (v : α) : List (String × α) :=
  (k, v) :: dictDel m k

/-- The mutable module-level maps of bot.py:
`gamerscore_cache: Dict[str, tuple[int, float]]` (tag → (score, timestamp))
and `failure_backoff: Dict[str, int]` (tag → consecutive failure count). -/
structure BotState where
  gamerscore_cache : List (String × (Nat × Int))
  failure_backoff : List (String × Nat)
deriving Repr, DecidableEq

/-- `get_cached_score` (bot.py lines 145-154): normalize the tag; if an
entry exists and `time.time() - ts < CACHE_EXPIRY_SECONDS` return the
score, otherwise delete the entry and return `None`.  Returns the result
together with the cache after the side effect. -/
def get_cached_score (cache : List (String × (Nat × Int))) (now : Int) (tag : String) :
    Option Nat × List (String × (Nat × Int)) :=
  let normalized := normalize_tag tag
  match dictGet cache normalized with
  | some (score, ts) =>
      if now - ts < CACHE_EXPIRY_SECONDS then (some score, cache)
      else (none, dictDel cache normalized)
  | none => (none, cache)

/-- `set_cached_score` (bot.py lines 157-159): store `(score, time.time())`
under the normalized tag. -/
def set_cached_score (cache : List (String × (Nat × Int))) (tag : String)
    (score : Nat) (now : Int) : List (String × (Nat × Int)) :=
  dictSet cache (normalize_tag tag) (score, now)

/-- `clear_expired_cache` (bot.py lines 307-315, the 10-minute sweep):
collect every tag with `now - ts > CACHE_EXPIRY_SECONDS` (strict), then
`del gamerscore_cache[tag]` and `failure_backoff.pop(tag, None)` for each. -/
def clear_expired_cache (st : BotState) (now : Int) : BotState :=
  let expired := (st.gamerscore_cache.filter
    (fun kv => now - kv.2.2 > CACHE_EXPIRY_SECONDS)).map (fun kv => kv.1)
  { gamerscore_cache := expired.foldl dictDel st.gamerscore_cache
    failure_backoff := expired.foldl dictDel st.failure_backoff }

/-- The keys the sweep deletes in one run. -/
def expiredKeys (st : BotState) (now : Int) : List String :=
  (st.gamerscore_cache.filter
    (fun kv => now - kv.2.2 > CACHE_EXPIRY_SECONDS)).map (fun kv => kv.1)

/-- Outcome of one upstream HTTP attempt, as observed at the boundary of
`fetch_gamerscore_http`: either the `aiohttp` call raised
(timeout/connection error), or a response arrived with some status code.
For a response, `parsed` is what the BeautifulSoup/regex stage of
bot.py lines 207-218 would extract from the body: `some v` when the
Gamerscore marker and a digit run are found (commas stripped), `none`
when the marker or the number is absent (a parse failure). -/
inductive FetchOutcome where
  | transportErr : FetchOutcome
  | resp (status : Nat) (parsed : Option Nat) : FetchOutcome
deriving Repr, DecidableEq

/-- Observable events of a run: a sleep of a given whole number of
seconds, or one HTTP request issued to the upstream. -/
inductive Event where
  | sleep (secs : Nat) : Event
  | httpRequest : Event
deriving Repr, DecidableEq

/-- `fetch_gamerscore_http` (bot.py lines 162-218) as a function of the
outcome of the attempt: a transport error returns `None`; status 429 sleeps 5
seconds and returns `None`; any other non-200 status returns `None`;
on 200 the parse result is returned (which is itself `None` on a parse
failure).  The returned event list is the trace of this call. -/
def fetch_gamerscore_http (o : FetchOutcome) : Option Nat × List Event :=
  match o with
  | .transportErr => (none, [.httpRequest])
  | .resp status parsed =>
      if status = 429 then (none, [.httpRequest, .sleep 5])
      else if status ≠ 200 then (none, [.httpRequest])
      else (parsed, [.httpRequest])

/-- Result of one `fetch_gamerscore` invocation: the returned
`Optional[int]`, the global maps after the call, the number of HTTP
attempts made, and the chronological event trace. -/
structure RunResult where
  result : Option Nat
  state : BotState
  attempts : Nat
  events : List Event
deriving Repr, DecidableEq

/-- The `for attempt in range(3)` retry loop of `fetch_gamerscore`
(bot.py lines 235-250).  Each iteration: `await asyncio.sleep(1)`, one
`fetch_gamerscore_http` call (outcome taken from the stream at the index
of attempts made so far); on success write the cache, zero the failure
counter and return; on failure increment the counter to `cnt`, compute
`wait = min(1 << cnt, 8)` and sleep it before the next iteration. -/
def retryLoop (outcomes : Nat → FetchOutcome) (normalized : String) (now : Int) :
    Nat → Nat → BotState → List Event → RunResult
  | 0, made, st, evs => ⟨none, st, made, evs⟩
  | remaining + 1, made, st, evs =>
      let fo := fetch_gamerscore_http (outcomes made)
      let evs₂ := evs ++ [Event.sleep 1] ++ fo.2
      match fo.1 with
      | some score =>
          ⟨some score,
           { gamerscore_cache := set_cached_score st.gamerscore_cache normalized score now
             failure_backoff := dictSet st.failure_backoff normalized 0 },
           made + 1, evs₂⟩
      | none =>
          let cnt := (dictGet st.failure_backoff normalized).getD 0 + 1
          let wait := min (2 ^ cnt) 8
          retryLoop outcomes normalized now remaining (made + 1)
            { gamerscore_cache := st.gamerscore_cache
              failure_backoff := dictSet st.failure_backoff normalized cnt }
            (evs₂ ++ [Event.sleep wait])

/-- `fetch_gamerscore` (bot.py lines 221-250), the resolver: normalize,
check the cache (whose expiry side effect is kept), return a hit
immediately, otherwise run the 3-attempt retry loop. -/
def fetch_gamerscore (outcomes : Nat → FetchOutcome) (now : Int)
    (st : BotState) (tag : String) : RunResult :=
  let normalized := normalize_tag tag
  let hit := get_cached_score st.gamerscore_cache now normalized
  let st₂ : BotState := { gamerscore_cache := hit.2, failure_backoff := st.failure_backoff }
  match hit.1 with
  | some score => ⟨some score, st₂, 0, []⟩
  | none => retryLoop outcomes normalized now 3 0 st₂ []

/-- One step of the tag-collection loop of `on_message` (bot.py lines
329-335): a tag whose lowercasing is in `ignore_set` is skipped; an
unchecked tag is appended to `new_tags` and to `checked_gamertags`. -/
def collectStep (ignore : List String) (acc : List String × List String)
    (tag : String) : List String × List String :=
  if pyLower tag ∈ ignore then acc
  else if tag ∈ acc.2 then acc
  else (acc.1 ++ [tag], acc.2 ++ [tag])

/-- The tag filter of the collector: fold `collectStep` over the extracted
tags, starting from empty `new_tags` and the current `checked_gamertags`;
returns `(new_tags, checked_gamertags)`.  `fetch_gamerscore` is then
invoked exactly on the members of `new_tags`. -/
def collect_new_tags (ignore : List String) (checked : List String)
    (tags : List String) : List String × List String :=
  tags.foldl (collectStep ignore) ([], checked)

/-- Waiting profile of a trace: for each HTTP request, the total seconds
slept since the previous request (or since the start of the run for the
first one); sleeps after the last request are not counted. -/
def waits_before_attempts : List Event → Nat → List Nat
  | [], _ => []
  | Event.sleep s :: rest, acc => waits_before_attempts rest (acc + s)
  | Event.httpRequest :: rest, acc => acc :: waits_before_attempts rest 0

/-- Event trace of `r` consecutive failed attempts of the retry loop,
starting from failure count `p`: each block is the 1-second throttle,
the HTTP request, and the backoff sleep `min(2^cnt, 8)` for the
incremented count. -/
def failTrace : Nat → Nat → List Event
  | _, 0 => []
  | p, r + 1 =>
      [Event.sleep 1, Event.httpRequest, Event.sleep (min (2 ^ (p + 1)) 8)] ++
        failTrace (p + 1) r

/-- The error taxonomy at the attempt boundary: a transport error
(timeout or connection failure), a non-2xx status (429 rate-limited
being the distinguished subtype), or a parse failure on a 200 body. -/
def isErrorOutcome : FetchOutcome → Prop
  | FetchOutcome.transportErr => True
  | FetchOutcome.resp status parsed => status ≠ 200 ∨ parsed = none

/-- Phase of one concurrent `resolve` caller with respect to the global
`rate_limit_lock` (bot.py lines 57-58, 170-206): `idle` before the
attempt, `inFlight` while holding the lock (connection, status check,
body read all happen inside `async with rate_limit_lock`), `parsing`
after the lock is released (BeautifulSoup work outside the lock),
`done` afterwards. -/
inductive Phase where
  | idle : Phase
  | inFlight : Phase
  | parsing : Phase
  | done : Phase
deriving Repr, DecidableEq

/-- Global state of the cooperative scheduler: who holds
`rate_limit_lock` (if anyone), and the phase of each task. -/
structure GateState where
  lockHolder : Option Nat
  phase : Nat → Phase

/-- Initial state: lock free, every task idle. -/
def initGate : GateState := ⟨none, fun _ => Phase.idle⟩

/-- Interleaving semantics of the lock discipline of
`fetch_gamerscore_http`: a task may acquire `rate_limit_lock` only when
no one holds it (then its whole upstream request is in flight), must
hold it to release (moving to out-of-lock parsing), and finishes from
parsing.  There is no per-key lock: the one lock is global. -/
inductive GateStep : GateState → GateState → Prop where
  | acquire (s : GateState) (t : Nat) :
      s.lockHolder = none → s.phase t = Phase.idle →
      GateStep s ⟨some t, Function.update s.phase t Phase.inFlight⟩
  | release (s : GateState) (t : Nat) :
      s.lockHolder = some t → s.phase t = Phase.inFlight →
      GateStep s ⟨none, Function.update s.phase t Phase.parsing⟩
  | finish (s : GateState) (t : Nat) :
      s.phase t = Phase.parsing →
      GateStep s ⟨s.lockHolder, Function.update s.phase t Phase.done⟩

/-- States reachable from the initial state by any interleaving. -/
def GateReachable (s : GateState) : Prop :=
  Relation.ReflTransGen GateStep initGate s

/-- Lock invariant: a task whose upstream request is in flight is the
holder of `rate_limit_lock`. -/
lemma gate_invariant {s : GateState} (h : GateReachable s) :
    ∀ t, s.phase t = Phase.inFlight → s.lockHolder = some t := by
  induction h with
  | refl => intro t ht; simp [initGate] at ht
  | tail _ step ih =>
      cases step with
      | acquire t hfree hidle =>
          intro u hu
          by_cases hut : u = t
          · subst hut; rfl
          · simp only [Function.update_noteq hut] at hu
            exact absurd (ih u hu) (by rw [hfree]; simp)
      | release t hheld hin =>
          intro u hu
          by_cases hut : u = t
          · subst hut; simp only [Function.update_same] at hu; exact absurd hu (by simp)
          · simp only [Function.update_noteq hut] at hu
            have h₂ := ih u hu
            rw [hheld] at h₂
            exact absurd (Option.some.inj h₂).symm hut
      | finish t hpars =>
          intro u hu
          by_cases hut : u = t
          · subst hut; simp only [Function.update_same] at hu; exact absurd hu (by simp)
          · simp only [Function.update_noteq hut] at hu
            exact ih u hu

lemma dictDel_cons {α : Type} (rest : List (String × α)) (k₂ k : String) (v : α) :
    dictDel ((k₂, v) :: rest) k =
      if k₂ = k then dictDel rest k else (k₂, v) :: dictDel rest k := by
  by_cases h : k₂ = k <;> simp [dictDel, List.filter_cons, h]

lemma dictGet_dictDel {α : Type} (m : List (String × α)) (k j : String) :
    dictGet (dictDel m k) j = if j = k then none else dictGet m j := by
  induction m with
  | nil => simp [dictDel, dictGet]
  | cons kv rest ih =>
      obtain ⟨k₂, v⟩ := kv
      rw [dictDel_cons]
      by_cases hk : k₂ = k
      · rw [if_pos hk, ih]
        subst hk
        by_cases hj : j = k₂
        · simp [hj]
        · simp [dictGet, hj]
      · rw [if_neg hk]
        by_cases hj : j = k₂
        · subst hj
          simp [dictGet, hk]
        · simp [dictGet, hj, ih]

lemma dictGet_dictSet {α : Type} (m : List (String × α)) (k j : String) (v : α) :
    dictGet (dictSet m k v) j = if j = k then some v else dictGet m j := by
  by_cases hj : j = k
  · subst hj; simp [dictSet, dictGet]
  · simp [dictSet, dictGet, hj, dictGet_dictDel]

lemma dictDel_dictDel_self {α : Type} (m : List (String × α)) (k : String) :
    dictDel (dictDel m k) k = dictDel m k := by
  simp [dictDel, List.filter_filter]

lemma dictSet_dictSet {α : Type} (m : List (String × α)) (k : String) (v w : α) :
    dictSet (dictSet m k v) k w = dictSet m k w := by
  simp [dictSet, dictDel, List.filter_cons, List.filter_filter]

/-- One failing iteration of the retry loop, as an equation. -/
lemma retryLoop_succ_fail (outcomes : Nat → FetchOutcome) (norm : String) (now : Int)
    (r made : Nat) (st : BotState) (evs : List Event)
    (h : (fetch_gamerscore_http (outcomes made)).1 = none) :
    retryLoop outcomes norm now (r + 1) made st evs =
      retryLoop outcomes norm now r (made + 1)
        { gamerscore_cache := st.gamerscore_cache
          failure_backoff := dictSet st.failure_backoff norm
            ((dictGet st.failure_backoff norm).getD 0 + 1) }
        (evs ++ [Event.sleep 1] ++ (fetch_gamerscore_http (outcomes made)).2 ++
          [Event.sleep (min (2 ^ ((dictGet st.failure_backoff norm).getD 0 + 1)) 8)]) := by
  simp only [retryLoop, h]

/-- One succeeding iteration of the retry loop, as an equation. -/
lemma retryLoop_succ_success (outcomes : Nat → FetchOutcome) (norm : String) (now : Int)
    (r made : Nat) (st : BotState) (evs : List Event) (score : Nat)
    (h : (fetch_gamerscore_http (outcomes made)).1 = some score) :
    retryLoop outcomes norm now (r + 1) made st evs =
      ⟨some score,
       { gamerscore_cache := set_cached_score st.gamerscore_cache norm score now
         failure_backoff := dictSet st.failure_backoff norm 0 },
       made + 1,
       evs ++ [Event.sleep 1] ++ (fetch_gamerscore_http (outcomes made)).2⟩ := by
  simp only [retryLoop, h]

/-- Characterization of the retry loop when the outcome of every attempt is a
failure (in any of the failure classes): the result is `None`, exactly
one HTTP attempt is made per iteration, the cache is untouched, and the
failure counter for the key ends at its initial value plus the number of
iterations. -/
lemma retryLoop_fail_spec (outcomes : Nat → FetchOutcome) (norm : String) (now : Int)
    (hfail : ∀ i, (fetch_gamerscore_http (outcomes i)).1 = none) :
    ∀ r made st evs,
      (retryLoop outcomes norm now r made st evs).result = none ∧
      (retryLoop outcomes norm now r made st evs).attempts = made + r ∧
      (retryLoop outcomes norm now r made st evs).state.gamerscore_cache =
        st.gamerscore_cache ∧
      (retryLoop outcomes norm now r made st evs).state.failure_backoff =
        (if r = 0 then st.failure_backoff
         else dictSet st.failure_backoff norm
           ((dictGet st.failure_backoff norm).getD 0 + r)) := by
  intro r
  induction r with
  | zero => intro made st evs; simp [retryLoop]
  | succ n ih =>
      intro made st evs
      rw [retryLoop_succ_fail outcomes norm now n made st evs (hfail made)]
      obtain ⟨ih₁, ih₂, ih₃, ih₄⟩ := ih (made + 1)
        { gamerscore_cache := st.gamerscore_cache
          failure_backoff := dictSet st.failure_backoff norm
            ((dictGet st.failure_backoff norm).getD 0 + 1) }
        (evs ++ [Event.sleep 1] ++ (fetch_gamerscore_http (outcomes made)).2 ++
          [Event.sleep (min (2 ^ ((dictGet st.failure_backoff norm).getD 0 + 1)) 8)])
      refine ⟨ih₁, ?_, ih₃, ?_⟩
      · rw [ih₂]; omega
      · rw [ih₄]
        simp only [dictGet_dictSet, eq_self_iff_true, if_true, if_pos rfl,
          Option.getD_some, dictSet_dictSet]
        by_cases hn : n = 0
        · subst hn; simp
        · simp only [if_neg hn, if_neg (Nat.succ_ne_zero n)]
          congr 1
          omega

/-- Event trace of the retry loop when every attempt fails with a bare
failure (transport error, non-2xx other than 429, or a parse failure on
a 200 — precisely the outcomes whose call trace is the single HTTP
request, with no extra 429 sleep). -/
lemma retryLoop_allFail_events (outcomes : Nat → FetchOutcome) (norm : String) (now : Int)
    (hfail : ∀ i, fetch_gamerscore_http (outcomes i) = (none, [Event.httpRequest])) :
    ∀ r made st evs,
      (retryLoop outcomes norm now r made st evs).events =
        evs ++ failTrace ((dictGet st.failure_backoff norm).getD 0) r := by
  intro r
  induction r with
  | zero => intro made st evs; simp [retryLoop, failTrace]
  | succ n ih =>
      intro made st evs
      have h₁ : (fetch_gamerscore_http (outcomes made)).1 = none := by rw [hfail made]
      rw [retryLoop_succ_fail outcomes norm now n made st evs h₁]
      rw [ih]
      simp [hfail made, failTrace, dictGet_dictSet]

/-- On a cache miss (no entry at all for the doubly-normalized key),
`fetch_gamerscore` is its retry loop. -/
lemma fetch_gamerscore_miss (outcomes : Nat → FetchOutcome) (now : Int)
    (st : BotState) (tag : String)
    (hmiss : dictGet st.gamerscore_cache (normalize_tag (normalize_tag tag)) = none) :
    fetch_gamerscore outcomes now st tag =
      retryLoop outcomes (normalize_tag tag) now 3 0
        { gamerscore_cache := st.gamerscore_cache
          failure_backoff := st.failure_backoff } [] := by
  simp only [fetch_gamerscore, get_cached_score, hmiss]

lemma dictGet_foldl_dictDel {α : Type} (ks : List String) (m : List (String × α))
    (k : String) :
    dictGet (ks.foldl dictDel m) k = if k ∈ ks then none else dictGet m k := by
  induction ks generalizing m with
  | nil => simp
  | cons k₂ rest ih =>
      simp only [List.foldl_cons, ih, dictGet_dictDel, List.mem_cons]
      by_cases hmem : k ∈ rest
      · simp [hmem]
      · by_cases hk : k = k₂ <;> simp [hk, hmem]

/-- For a map with pairwise distinct keys, a key appears among the keys
of a filtered map exactly when its (unique) binding satisfies the
predicate. -/
lemma mem_filter_keys_iff {α : Type} (m : List (String × α)) (p : String × α → Bool)
    (tag : String) (hnd : (m.map Prod.fst).Nodup) :
    tag ∈ (m.filter p).map Prod.fst ↔
      ∃ v, dictGet m tag = some v ∧ p (tag, v) = true := by
  induction m with
  | nil => simp [dictGet]
  | cons kv rest ih =>
      obtain ⟨k₂, v₂⟩ := kv
      simp only [List.map_cons, List.nodup_cons] at hnd
      obtain ⟨hk₂, hrest⟩ := hnd
      by_cases htag : tag = k₂
      · subst htag
        have hnotin : tag ∉ (rest.filter p).map Prod.fst := by
          intro hmem
          exact hk₂ (by
            obtain ⟨kv₂, hkv₂, hfst⟩ := List.mem_map.mp hmem
            exact hfst ▸ List.mem_map_of_mem Prod.fst (List.mem_of_mem_filter hkv₂))
        by_cases hp : p (tag, v₂) = true
        · simp [List.filter_cons, hp, dictGet]
        · simp only [List.filter_cons, hp, Bool.false_eq_true, if_neg, ite_false,
            dictGet, if_pos rfl]
          constructor
          · intro hmem; exact absurd hmem hnotin
          · rintro ⟨w, hw, hpw⟩
            exact absurd ((Option.some.inj hw) ▸ hpw) hp
      · simp only [List.filter_cons, dictGet, if_neg htag]
        by_cases hp : p (k₂, v₂) = true
        · simp only [hp, if_pos, List.map_cons, List.mem_cons]
          rw [ih hrest]
          simp [htag]
        · simp only [hp, Bool.false_eq_true, ite_false]
          exact ih hrest

/-- The collector never lets an ignored tag into the accumulator. -/
lemma collect_foldl_not_mem (ignore : List String) (tag : String)
    (hig : pyLower tag ∈ ignore) :
    ∀ (tags : List String) (acc : List String × List String),
      tag ∉ acc.1 → tag ∉ (tags.foldl (collectStep ignore) acc).1 := by
  intro tags
  induction tags with
  | nil => intro acc hacc; simpa using hacc
  | cons t rest ih =>
      intro acc hacc
      simp only [List.foldl_cons]
      apply ih
      unfold collectStep
      by_cases h₁ : pyLower t ∈ ignore
      · simpa [h₁] using hacc
      · by_cases h₂ : t ∈ acc.2
        · simpa [h₁, h₂] using hacc
        · simp only [h₁, h₂, if_neg, ite_false, List.mem_append,
            List.mem_singleton]
          rintro (hmem | rfl)
          · exact hacc hmem
          · exact h₁ hig

/-- C1: for every key with a stored entry, `get_cached_score` returns the
stored value iff `now - observedAt < TTL` (3600 s); an entry whose age is
at least the TTL (in particular exactly the TTL) is treated as expired,
removed from the cache as a side effect of the read, and the read
returns absent. -/
theorem C1_ttl_read (cache : List (String × (Nat × Int))) (now : Int) (tag : String)
    (score : Nat) (ts : Int)
    (h : dictGet cache (normalize_tag tag) = some (score, ts)) :
    ((get_cached_score cache now tag).1 = some score ↔
      now - ts < CACHE_EXPIRY_SECONDS) ∧
    (CACHE_EXPIRY_SECONDS ≤ now - ts →
      (get_cached_score cache now tag).1 = none ∧
      dictGet (get_cached_score cache now tag).2 (normalize_tag tag) = none) := by
  have hres : get_cached_score cache now tag =
      if now - ts < CACHE_EXPIRY_SECONDS then (some score, cache)
      else (none, dictDel cache (normalize_tag tag)) := by
    simp only [get_cached_score, h]
  rw [hres]
  by_cases hfresh : now - ts < CACHE_EXPIRY_SECONDS
  · simp only [if_pos hfresh]
    exact ⟨by simp [hfresh], fun hold => absurd hfresh (by omega)⟩
  · simp only [if_neg hfresh]
    refine ⟨by simp [hfresh], fun _ => ⟨by simp, ?_⟩⟩
    rw [dictGet_dictDel]
    simp

/-- Witness for C1 at a concrete input: entry aged exactly the TTL. -/
theorem C1_ttl_read_witness :
    ((get_cached_score [("a", (7, 0))] 3600 "a").1 = some 7 ↔
      (3600 : Int) - 0 < CACHE_EXPIRY_SECONDS) ∧
    (CACHE_EXPIRY_SECONDS ≤ (3600 : Int) - 0 →
      (get_cached_score [("a", (7, 0))] 3600 "a").1 = none ∧
      dictGet (get_cached_score [("a", (7, 0))] 3600 "a").2 (normalize_tag "a") = none) :=
  C1_ttl_read [("a", (7, 0))] 3600 "a" 7 0 (by decide)

/-- C2, as stated, is false on the code: the retry loop sleeps the
1-second throttle before *every* attempt, on top of the backoff sleep
`min(2^k, 8)` recorded after the preceding failure, so the wait before a
subsequent attempt is `1 + min(2^k, 8)`, which reaches 9 > 8.  Concrete
run: key "a" with 3 previously recorded failures, every attempt failing
with a transport error: the waits before the three attempts are
1, 9 and 9 seconds. -/
theorem C2_counterexample :
    waits_before_attempts (fetch_gamerscore (fun _ => FetchOutcome.transportErr) 0
      { gamerscore_cache := [], failure_backoff := [("a", 3)] } "a").events 0 =
      [1, 9, 9] ∧
    ¬ (∀ w ∈ waits_before_attempts (fetch_gamerscore (fun _ => FetchOutcome.transportErr) 0
      { gamerscore_cache := [], failure_backoff := [("a", 3)] } "a").events 0, w ≤ 8) := by
  decide

/-- C2 amended: on a cache miss with every attempt failing bare (no 429
sleep), the first attempt is preceded only by the unconditional 1-second
throttle, and the wait before each subsequent attempt equals
`1 + min(2^k, 8)` — the backoff sleep for the incremented failure count
`k` plus the 1-second throttle of the next iteration; the backoff component
is capped at 8, so no inter-attempt wait exceeds 9. -/
theorem C2_backoff_amended (outcomes : Nat → FetchOutcome) (now : Int)
    (st : BotState) (tag : String)
    (hmiss : dictGet st.gamerscore_cache (normalize_tag (normalize_tag tag)) = none)
    (hfail : ∀ i, fetch_gamerscore_http (outcomes i) = (none, [Event.httpRequest])) :
    waits_before_attempts (fetch_gamerscore outcomes now st tag).events 0 =
      [1,
       min (2 ^ ((dictGet st.failure_backoff (normalize_tag tag)).getD 0 + 1)) 8 + 1,
       min (2 ^ ((dictGet st.failure_backoff (normalize_tag tag)).getD 0 + 2)) 8 + 1] ∧
    ∀ w ∈ waits_before_attempts (fetch_gamerscore outcomes now st tag).events 0,
      w ≤ 9 := by
  have hev : waits_before_attempts (fetch_gamerscore outcomes now st tag).events 0 =
      [1,
       min (2 ^ ((dictGet st.failure_backoff (normalize_tag tag)).getD 0 + 1)) 8 + 1,
       min (2 ^ ((dictGet st.failure_backoff (normalize_tag tag)).getD 0 + 2)) 8 + 1] := by
    rw [fetch_gamerscore_miss outcomes now st tag hmiss,
      retryLoop_allFail_events outcomes (normalize_tag tag) now hfail]
    simp [failTrace, waits_before_attempts]
  refine ⟨hev, ?_⟩
  rw [hev]
  intro w hw
  have h₁ := Nat.min_le_right
    (2 ^ ((dictGet st.failure_backoff (normalize_tag tag)).getD 0 + 1)) 8
  have h₂ := Nat.min_le_right
    (2 ^ ((dictGet st.failure_backoff (normalize_tag tag)).getD 0 + 2)) 8
  simp only [List.mem_cons, List.not_mem_nil, or_false] at hw
  rcases hw with rfl | rfl | rfl
  · omega
  · omega
  · omega

/-- Witness for C2 amended: fresh key, transport errors only; the waits
are 1, 3 and 5 seconds, all at most 9. -/
theorem C2_backoff_amended_witness :
    waits_before_attempts (fetch_gamerscore (fun _ => FetchOutcome.transportErr) 0
      { gamerscore_cache := [], failure_backoff := [] } "a").events 0 =
      [1, min (2 ^ (0 + 1)) 8 + 1, min (2 ^ (0 + 2)) 8 + 1] ∧
    (3 : Nat) ≤ 9 := by
  have h := C2_backoff_amended (fun _ => FetchOutcome.transportErr) 0
    { gamerscore_cache := [], failure_backoff := [] } "a" (by decide) (fun _ => rfl)
  exact ⟨by simpa using h.1, h.2 3 (by rw [h.1]; decide)⟩

/-- C3: for an uncached key whose fetch always fails, `fetch_gamerscore`
makes exactly 3 HTTP attempts, returns `None` (the failure result, not a
value), and leaves no cache entry for the key. -/
theorem C3_retry_exhaustion (outcomes : Nat → FetchOutcome) (now : Int)
    (st : BotState) (tag : String)
    (hmiss : dictGet st.gamerscore_cache (normalize_tag (normalize_tag tag)) = none)
    (hfail : ∀ i, (fetch_gamerscore_http (outcomes i)).1 = none) :
    (fetch_gamerscore outcomes now st tag).result = none ∧
    (fetch_gamerscore outcomes now st tag).attempts = 3 ∧
    dictGet (fetch_gamerscore outcomes now st tag).state.gamerscore_cache
      (normalize_tag (normalize_tag tag)) = none := by
  rw [fetch_gamerscore_miss outcomes now st tag hmiss]
  obtain ⟨h₁, h₂, h₃, h₄⟩ := retryLoop_fail_spec outcomes (normalize_tag tag) now hfail
    3 0 { gamerscore_cache := st.gamerscore_cache, failure_backoff := st.failure_backoff } []
  exact ⟨h₁, by rw [h₂], by rw [h₃]; exact hmiss⟩

/-- Witness for C3: fresh key "a", transport errors only. -/
theorem C3_retry_exhaustion_witness :
    (fetch_gamerscore (fun _ => FetchOutcome.transportErr) 0
      { gamerscore_cache := [], failure_backoff := [] } "a").result = none ∧
    (fetch_gamerscore (fun _ => FetchOutcome.transportErr) 0
      { gamerscore_cache := [], failure_backoff := [] } "a").attempts = 3 ∧
    dictGet (fetch_gamerscore (fun _ => FetchOutcome.transportErr) 0
      { gamerscore_cache := [], failure_backoff := [] } "a").state.gamerscore_cache
      (normalize_tag (normalize_tag "a")) = none :=
  C3_retry_exhaustion (fun _ => FetchOutcome.transportErr) 0
    { gamerscore_cache := [], failure_backoff := [] } "a" (by decide) (fun _ => rfl)

/-- C4: every fetch error — transport error, non-2xx status, or parse
failure — is caught at the attempt boundary of `fetch_gamerscore_http`
and becomes the uniform failure value `None` there, and such an error is
folded into the retry loop rather than propagating: a resolve whose
first attempt hits any such error still returns the value of a
succeeding second attempt.  (`fetch_gamerscore` is a total function into
`Option`, so it always returns a value or the failure value; there is no
exceptional exit.) -/
theorem C4_errors_folded (o : FetchOutcome) (outcomes : Nat → FetchOutcome)
    (now : Int) (st : BotState) (tag : String) (v : Nat)
    (ho : isErrorOutcome o)
    (hmiss : dictGet st.gamerscore_cache (normalize_tag (normalize_tag tag)) = none)
    (h₀ : outcomes 0 = o)
    (h₁ : (fetch_gamerscore_http (outcomes 1)).1 = some v) :
    (fetch_gamerscore_http o).1 = none ∧
    (fetch_gamerscore outcomes now st tag).result = some v := by
  have herr : (fetch_gamerscore_http o).1 = none := by
    cases o with
    | transportErr => rfl
    | resp status parsed =>
        by_cases h429 : status = 429
        · simp [fetch_gamerscore_http, h429]
        · by_cases h200 : status = 200
          · have hp : parsed = none := by
              rcases ho with hne | hp
              · exact absurd h200 hne
              · exact hp
            simp [fetch_gamerscore_http, h429, h200, hp]
          · simp [fetch_gamerscore_http, h429, h200]
  refine ⟨herr, ?_⟩
  rw [fetch_gamerscore_miss outcomes now st tag hmiss]
  have hfail₀ : (fetch_gamerscore_http (outcomes 0)).1 = none := by rw [h₀]; exact herr
  rw [retryLoop_succ_fail outcomes (normalize_tag tag) now 2 0
    { gamerscore_cache := st.gamerscore_cache, failure_backoff := st.failure_backoff }
    [] hfail₀]
  rw [retryLoop_succ_success outcomes (normalize_tag tag) now 1 (0 + 1) _ _ v
    (by simpa using h₁)]

/-- Witness for C4: a parse failure on a 200 response, then a clean 200. -/
theorem C4_errors_folded_witness :
    (fetch_gamerscore_http (FetchOutcome.resp 200 none)).1 = none ∧
    (fetch_gamerscore
      (fun i => if i = 0 then FetchOutcome.resp 200 none else FetchOutcome.resp 200 (some 42))
      0 { gamerscore_cache := [], failure_backoff := [] } "a").result = some 42 :=
  C4_errors_folded (FetchOutcome.resp 200 none)
    (fun i => if i = 0 then FetchOutcome.resp 200 none else FetchOutcome.resp 200 (some 42))
    0 { gamerscore_cache := [], failure_backoff := [] } "a" 42
    (Or.inr rfl) (by decide) rfl rfl

/-- C5: under any interleaving of any number of concurrent resolve
callers, at most one upstream request is in flight at any instant — two
tasks simultaneously in the `inFlight` phase are the same task.  The
proof rests only on the global `rate_limit_lock` discipline; there is no
per-key lock in the model, as in the code. -/
theorem C5_single_flight {s : GateState} (h : GateReachable s) (t₁ t₂ : Nat)
    (h₁ : s.phase t₁ = Phase.inFlight) (h₂ : s.phase t₂ = Phase.inFlight) :
    t₁ = t₂ := by
  have e₁ := gate_invariant h t₁ h₁
  have e₂ := gate_invariant h t₂ h₂
  rw [e₁] at e₂
  exact Option.some.inj e₂

/-- Witness for C5: the state reached when task 0 has acquired the lock. -/
theorem C5_single_flight_witness :
    GateReachable ⟨some 0, Function.update (fun _ => Phase.idle) 0 Phase.inFlight⟩ ∧
    (0 : Nat) = 0 := by
  have hreach : GateReachable
      ⟨some 0, Function.update (fun _ => Phase.idle) 0 Phase.inFlight⟩ :=
    Relation.ReflTransGen.single (GateStep.acquire initGate 0 rfl rfl)
  exact ⟨hreach, C5_single_flight hreach 0 0 (by simp) (by simp)⟩

/-- C6, as stated, is false on the code: the sweep predicate is the
strict `now - ts > CACHE_EXPIRY_SECONDS`, so an entry whose age equals
the TTL exactly (3600 s) is NOT removed by `clear_expired_cache`.
Concrete input: entry ("a", 100) observed at time 0, swept at time 3600. -/
theorem C6_counterexample :
    (3600 : Int) - 0 ≥ CACHE_EXPIRY_SECONDS ∧
    dictGet (clear_expired_cache
      { gamerscore_cache := [("a", (100, 0))], failure_backoff := [] } 3600).gamerscore_cache
      "a" = some (100, 0) := by
  decide

/-- C6 amended: the sweep removes exactly the entries whose age is
strictly greater than the TTL; an entry aged exactly the TTL survives
the sweep (though the lazy read path would treat it as expired). -/
theorem C6_sweep_amended (st : BotState) (now : Int) (tag : String)
    (score : Nat) (ts : Int)
    (hnd : (st.gamerscore_cache.map Prod.fst).Nodup)
    (h : dictGet st.gamerscore_cache tag = some (score, ts)) :
    dictGet (clear_expired_cache st now).gamerscore_cache tag =
      (if now - ts > CACHE_EXPIRY_SECONDS then none else some (score, ts)) := by
  have hcache : (clear_expired_cache st now).gamerscore_cache =
      (expiredKeys st now).foldl dictDel st.gamerscore_cache := rfl
  rw [hcache, dictGet_foldl_dictDel]
  by_cases hage : now - ts > CACHE_EXPIRY_SECONDS
  · have hmem : tag ∈ expiredKeys st now := by
      unfold expiredKeys
      rw [mem_filter_keys_iff _ _ _ hnd]
      exact ⟨(score, ts), h, by simpa using hage⟩
    simp [hmem, hage]
  · have hmem : tag ∉ expiredKeys st now := by
      unfold expiredKeys
      rw [mem_filter_keys_iff _ _ _ hnd]
      rintro ⟨w, hw, hpw⟩
      rw [h] at hw
      obtain rfl := Option.some.inj hw
      simp at hpw
      omega
    simp [hmem, hage, h]

/-- Witness for C6 amended: entry aged one second past the TTL is
removed. -/
theorem C6_sweep_amended_witness :
    dictGet (clear_expired_cache
      { gamerscore_cache := [("a", (100, 0))], failure_backoff := [] } 3601).gamerscore_cache
      "a" = (if (3601 : Int) - 0 > CACHE_EXPIRY_SECONDS then none else some (100, 0)) :=
  C6_sweep_amended { gamerscore_cache := [("a", (100, 0))], failure_backoff := [] }
    3601 "a" 100 0 (by decide) (by decide)

/-- C7: a 429 on the first attempt followed by a 200 with a valid body
makes resolve succeed with exactly 2 HTTP attempts, and the 429 forces
the extra fixed 5-second sleep BEFORE the regular backoff wait of the
retry loop, as the event trace shows. -/
theorem C7_rate_limited_then_ok (outcomes : Nat → FetchOutcome) (now : Int)
    (st : BotState) (tag : String) (pb : Option Nat) (v : Nat)
    (hmiss : dictGet st.gamerscore_cache (normalize_tag (normalize_tag tag)) = none)
    (h₀ : outcomes 0 = FetchOutcome.resp 429 pb)
    (h₁ : outcomes 1 = FetchOutcome.resp 200 (some v)) :
    (fetch_gamerscore outcomes now st tag).result = some v ∧
    (fetch_gamerscore outcomes now st tag).attempts = 2 ∧
    (fetch_gamerscore outcomes now st tag).events =
      [Event.sleep 1, Event.httpRequest, Event.sleep 5,
       Event.sleep (min (2 ^ ((dictGet st.failure_backoff (normalize_tag tag)).getD 0 + 1)) 8),
       Event.sleep 1, Event.httpRequest] := by
  rw [fetch_gamerscore_miss outcomes now st tag hmiss]
  have hfail₀ : (fetch_gamerscore_http (outcomes 0)).1 = none := by
    rw [h₀]; simp [fetch_gamerscore_http]
  rw [retryLoop_succ_fail outcomes (normalize_tag tag) now 2 0
    { gamerscore_cache := st.gamerscore_cache, failure_backoff := st.failure_backoff }
    [] hfail₀]
  have hok : (fetch_gamerscore_http (outcomes (0 + 1))).1 = some v := by
    simp only [Nat.zero_add, h₁]
    simp [fetch_gamerscore_http]
  rw [retryLoop_succ_success outcomes (normalize_tag tag) now 1 (0 + 1) _ _ v hok]
  refine ⟨rfl, rfl, ?_⟩
  simp [h₀, h₁, fetch_gamerscore_http]

/-- Witness for C7: fresh key "a", 429 then 200 with parsed value 1234. -/
theorem C7_rate_limited_then_ok_witness :
    (fetch_gamerscore
      (fun i => if i = 0 then FetchOutcome.resp 429 none else FetchOutcome.resp 200 (some 1234))
      0 { gamerscore_cache := [], failure_backoff := [] } "a").result = some 1234 ∧
    (fetch_gamerscore
      (fun i => if i = 0 then FetchOutcome.resp 429 none else FetchOutcome.resp 200 (some 1234))
      0 { gamerscore_cache := [], failure_backoff := [] } "a").attempts = 2 ∧
    (fetch_gamerscore
      (fun i => if i = 0 then FetchOutcome.resp 429 none else FetchOutcome.resp 200 (some 1234))
      0 { gamerscore_cache := [], failure_backoff := [] } "a").events =
      [Event.sleep 1, Event.httpRequest, Event.sleep 5,
       Event.sleep (min (2 ^ ((dictGet ([] : List (String × Nat)) (normalize_tag "a")).getD 0 + 1)) 8),
       Event.sleep 1, Event.httpRequest] :=
  C7_rate_limited_then_ok
    (fun i => if i = 0 then FetchOutcome.resp 429 none else FetchOutcome.resp 200 (some 1234))
    0 { gamerscore_cache := [], failure_backoff := [] } "a" none 1234
    (by decide) rfl rfl

/-- C8, as stated, is false on the code: `fetch_gamerscore` itself does
no ignore check; called on an uncached key whose normalized form is in
the ignore list, it performs HTTP attempts (three of them here) instead
of returning immediately without network activity.  The ignore check
lives only in the collectors. -/
theorem C8_counterexample :
    pyLower "a" ∈ (["a"] : List String) ∧
    Event.httpRequest ∈ (fetch_gamerscore (fun _ => FetchOutcome.transportErr) 0
      { gamerscore_cache := [], failure_backoff := [] } "a").events ∧
    (fetch_gamerscore (fun _ => FetchOutcome.transportErr) 0
      { gamerscore_cache := [], failure_backoff := [] } "a").attempts = 3 := by
  decide

/-- C8 amended: the ignore check happens in the surrounding collector
(`on_message` / `checklast`), not inside resolve: a tag whose lowercased
form is in the ignore set never enters `new_tags`, so `fetch_gamerscore`
is never invoked for it and no network activity occurs on that path. -/
theorem C8_ignored_in_collector (ignore checked tags : List String) (tag : String)
    (hig : pyLower tag ∈ ignore) :
    tag ∉ (collect_new_tags ignore checked tags).1 := by
  unfold collect_new_tags
  exact collect_foldl_not_mem ignore tag hig tags ([], checked) (by simp)

/-- Witness for C8 amended: "Foo" is ignored via "foo" and is not
collected. -/
theorem C8_ignored_in_collector_witness :
    "Foo" ∉ (collect_new_tags ["foo"] [] ["Foo", "Bar"]).1 :=
  C8_ignored_in_collector ["foo"] [] ["Foo", "Bar"] "Foo" (by decide)

/-- C9, as stated, is false on the code: the sweep removes failure
counters only for the cache keys it evicts in that run; a counter for a
key with no cache entry at all (here "a" with 3 recorded failures and an
empty cache) survives the sweep, so the domain of the failure map is not
contained in the domain of the cache afterwards. -/
theorem C9_counterexample :
    dictGet (clear_expired_cache
      { gamerscore_cache := [], failure_backoff := [("a", 3)] } 0).failure_backoff
      "a" = some 3 ∧
    dictGet (clear_expired_cache
      { gamerscore_cache := [], failure_backoff := [("a", 3)] } 0).gamerscore_cache
      "a" = none := by
  decide

/-- C9 amended: each sweep removes the failure counter exactly for the
keys whose cache entry it evicts (age strictly greater than TTL);
counters for keys with no cache entry are left untouched. -/
theorem C9_sweep_failures_amended (st : BotState) (now : Int) (k : String)
    (hnd : (st.gamerscore_cache.map Prod.fst).Nodup) :
    (dictGet (clear_expired_cache st now).failure_backoff k =
      if k ∈ expiredKeys st now then none else dictGet st.failure_backoff k) ∧
    (dictGet st.gamerscore_cache k = none →
      dictGet (clear_expired_cache st now).failure_backoff k =
        dictGet st.failure_backoff k) := by
  have hfb : (clear_expired_cache st now).failure_backoff =
      (expiredKeys st now).foldl dictDel st.failure_backoff := rfl
  refine ⟨by rw [hfb, dictGet_foldl_dictDel], ?_⟩
  intro habs
  rw [hfb, dictGet_foldl_dictDel]
  have hnotin : k ∉ expiredKeys st now := by
    unfold expiredKeys
    rw [mem_filter_keys_iff _ _ _ hnd]
    rintro ⟨w, hw, _⟩
    rw [habs] at hw
    exact Option.noConfusion hw
  simp [hnotin]

/-- Witness for C9 amended: sweep at time 4000 evicts "b" (age 4000) and
its counter, while the counter of the never-cached key "a" survives. -/
theorem C9_sweep_failures_amended_witness :
    (dictGet (clear_expired_cache
      { gamerscore_cache := [("b", (5, 0))], failure_backoff := [("a", 3), ("b", 2)] }
      4000).failure_backoff "a" =
      if "a" ∈ expiredKeys
        { gamerscore_cache := [("b", (5, 0))], failure_backoff := [("a", 3), ("b", 2)] }
        4000 then none
      else dictGet [("a", 3), ("b", 2)] "a") ∧
    (dictGet ([("b", (5, 0))] : List (String × (Nat × Int))) "a" = none →
      dictGet (clear_expired_cache
        { gamerscore_cache := [("b", (5, 0))], failure_backoff := [("a", 3), ("b", 2)] }
        4000).failure_backoff "a" = dictGet [("a", 3), ("b", 2)] "a") := by
  have h := C9_sweep_failures_amended
    { gamerscore_cache := [("b", (5, 0))], failure_backoff := [("a", 3), ("b", 2)] }
    4000 "a" (by decide)
  simpa using h

/-- C10: when resolve exhausts its 3 attempts for an uncached key, the
failure counter of the key remains in the map at its prior value plus 3 (so
at least 3) — exhaustion neither resets nor removes it — and a later
resolve call for the same key (here with bare-failing attempts) computes
its backoff waits from that carried-over count: its trace is the failure
trace starting at count prior + 3. -/
theorem C10_exhaustion_counter (outcomes : Nat → FetchOutcome) (now : Int)
    (st : BotState) (tag : String)
    (hmiss : dictGet st.gamerscore_cache (normalize_tag (normalize_tag tag)) = none)
    (hfail : ∀ i, (fetch_gamerscore_http (outcomes i)).1 = none) :
    dictGet (fetch_gamerscore outcomes now st tag).state.failure_backoff
      (normalize_tag tag) =
      some ((dictGet st.failure_backoff (normalize_tag tag)).getD 0 + 3) ∧
    3 ≤ (dictGet st.failure_backoff (normalize_tag tag)).getD 0 + 3 ∧
    (∀ outcomes₂ : Nat → FetchOutcome,
      (∀ i, fetch_gamerscore_http (outcomes₂ i) = (none, [Event.httpRequest])) →
      (fetch_gamerscore outcomes₂ now (fetch_gamerscore outcomes now st tag).state
        tag).events =
        failTrace ((dictGet st.failure_backoff (normalize_tag tag)).getD 0 + 3) 3) := by
  rw [fetch_gamerscore_miss outcomes now st tag hmiss]
  obtain ⟨h₁, h₂, h₃, h₄⟩ := retryLoop_fail_spec outcomes (normalize_tag tag) now hfail
    3 0 { gamerscore_cache := st.gamerscore_cache, failure_backoff := st.failure_backoff } []
  have hfb : (retryLoop outcomes (normalize_tag tag) now 3 0
      { gamerscore_cache := st.gamerscore_cache, failure_backoff := st.failure_backoff }
      []).state.failure_backoff =
      dictSet st.failure_backoff (normalize_tag tag)
        ((dictGet st.failure_backoff (normalize_tag tag)).getD 0 + 3) := by
    rw [h₄]; simp
  refine ⟨by rw [hfb, dictGet_dictSet]; simp, by omega, ?_⟩
  intro outcomes₂ hfail₂
  have hmiss₂ : dictGet (retryLoop outcomes (normalize_tag tag) now 3 0
      { gamerscore_cache := st.gamerscore_cache, failure_backoff := st.failure_backoff }
      []).state.gamerscore_cache (normalize_tag (normalize_tag tag)) = none := by
    rw [h₃]; exact hmiss
  rw [fetch_gamerscore_miss outcomes₂ now _ tag hmiss₂,
    retryLoop_allFail_events outcomes₂ (normalize_tag tag) now hfail₂]
  simp only [List.nil_append]
  rw [hfb, dictGet_dictSet]
  simp

/-- Witness for C10: key "a" with 2 prior failures, transport errors
only; the counter ends at 5 and the trace of a later bare-failing run starts
its backoff at count 5. -/
theorem C10_exhaustion_counter_witness :
    dictGet (fetch_gamerscore (fun _ => FetchOutcome.transportErr) 0
      { gamerscore_cache := [], failure_backoff := [("a", 2)] } "a").state.failure_backoff
      (normalize_tag "a") =
      some ((dictGet [("a", 2)] (normalize_tag "a")).getD 0 + 3) ∧
    3 ≤ (dictGet [("a", 2)] (normalize_tag "a")).getD 0 + 3 ∧
    (fetch_gamerscore (fun _ => FetchOutcome.transportErr) 0
      (fetch_gamerscore (fun _ => FetchOutcome.transportErr) 0
        { gamerscore_cache := [], failure_backoff := [("a", 2)] } "a").state "a").events =
      failTrace ((dictGet [("a", 2)] (normalize_tag "a")).getD 0 + 3) 3 := by
  have h := C10_exhaustion_counter (fun _ => FetchOutcome.transportErr) 0
    { gamerscore_cache := [], failure_backoff := [("a", 2)] } "a" (by decide) (fun _ => rfl)
  exact ⟨h.1, h.2.1, h.2.2 (fun _ => FetchOutcome.transportErr) (fun _ => rfl)⟩

end GamerscoreBot
